import Mathlib

/-!
Shallow embedding of the RTSP-CLIENT pipeline builder (`src/main.cpp`,
class `GStreamPipeline` and the free function `onPadAdded`).

The external GStreamer engine is modelled by an `Engine` oracle that decides
the outcome of every native call (`gst_element_factory_make`, `gst_bin_add`,
`gst_caps_from_string`, `gst_element_link`, `gst_element_link_filtered`,
`gst_element_set_state`, `gst_element_link_pads`).  Native objects are
identified by natural-number ids allocated from a counter.  `PState` mirrors
the observable state of one `GStreamPipeline` object together with the live
native resources:

* `pipeline`       : the `m_pipeline` pointer (`none` = NULL);
* `registry`       : `m_pipeline_map`, an association list from element name
                     to `(GstElement*, GstCaps*)`, with `std::map` key
                     semantics (unique keys, `operator[]` overwrites);
* `elems`          : ids of live (allocated, not unref-ed) `GstElement`s;
* `attached`       : ids of elements successfully added to the pipeline bin;
* `liveCaps`       : ids of live (allocated, not unref-ed) `GstCaps`;
* `links`          : successful links, in the order they were made;
* `linkAttempts`   : every `gst_element_link` / `gst_element_link_filtered`
                     call, in order;
* `filteredAttempts` : every `gst_element_link_filtered` call `(src, dst, caps)`;
* `signals`, `props`, `stateReqs` : logs of `g_signal_connect`,
                     `g_object_set` and `gst_element_set_state` calls;
* `nextId`         : allocation counter.

A freed `GstCaps` is removed from `liveCaps`; the model reads `GST_IS_CAPS`
of a non-NULL but freed caps pointer as `false` (the released object no
longer validates as a caps instance).
-/

namespace GStream

/-- States of `GstState` used by the program. -/
inductive GstState where
  | null
  | ready
  | paused
  | playing
deriving DecidableEq, Repr

/-- Outcome oracle for the external GStreamer engine calls. -/
structure Engine where
  factoryOk : String → String → Bool
  binAddOk : Nat → Bool
  capsOk : String → Bool
  linkOk : Nat → Nat → Bool
  linkFilteredOk : Nat → Nat → Nat → Bool
  setStateOk : Nat → GstState → Bool
  padLinkOk : Nat → String → Nat → Bool

/-- Value stored in `m_pipeline_map`: the element pointer and the optional
caps pointer (`gstream_pair`). -/
abbrev RegEntry := Nat × Option Nat

/-- Observable state of one `GStreamPipeline` object plus live native
resources. -/
structure PState where
  pipeline : Option Nat
  registry : List (String × RegEntry)
  elems : List Nat
  attached : List Nat
  liveCaps : List Nat
  links : List (Nat × Nat)
  linkAttempts : List (Nat × Nat)
  filteredAttempts : List (Nat × Nat × Nat)
  signals : List (Nat × String)
  props : List (Nat × String × Nat)
  stateReqs : List (Nat × GstState)
  nextId : Nat
deriving DecidableEq, Repr

/-- State right after the `GStreamPipeline` constructor: `gst_pipeline_new`
allocated the pipeline element (id 0), the map is empty. -/
def initState : PState :=
  { pipeline := some 0
    registry := []
    elems := [0]
    attached := []
    liveCaps := []
    links := []
    linkAttempts := []
    filteredAttempts := []
    signals := []
    props := []
    stateReqs := []
    nextId := 1 }

/-- Lookup in the registry (`m_pipeline_map.find`). -/
def lookupReg : List (String × RegEntry) → String → Option RegEntry
  | [], _ => none
  | (k, v) :: rest, key => if k = key then some v else lookupReg rest key

/-- Remove every binding of a key (helper for `std::map::operator[]`). -/
def eraseKey : List (String × RegEntry) → String → List (String × RegEntry)
  | [], _ => []
  | (k, v) :: rest, key =>
    if k = key then eraseKey rest key else (k, v) :: eraseKey rest key

/-- `m_pipeline_map[element_name] = v`: unique keys, overwrite on collision. -/
def insertReplace (m : List (String × RegEntry)) (k : String) (v : RegEntry) :
    List (String × RegEntry) :=
  (k, v) :: eraseKey m k

/-- Number of registry entries stored under a key. -/
def countKey : List (String × RegEntry) → String → Nat
  | [], _ => 0
  | (k, _) :: rest, key => (if k = key then 1 else 0) + countKey rest key

/-- `GStreamPipeline::createElement` (src/main.cpp lines 75-91): NULL pipe
check, `gst_element_factory_make`, `gst_bin_add`; on `gst_bin_add` failure the
freshly made element is unref-ed (`gst_object_unref`) before returning NULL. -/
def createElement (env : Engine) (s : PState) (element element_name : String) :
    Option Nat × PState :=
  match s.pipeline with
  | none => (none, s)
  | some _ =>
    if env.factoryOk element element_name then
      let id := s.nextId
      let s1 := { s with nextId := id + 1, elems := id :: s.elems }
      if env.binAddOk id then
        (some id, { s1 with attached := id :: s1.attached })
      else
        (none, { s1 with elems := s1.elems.erase id })
    else (none, s)

/-- `gst_caps_from_string`: allocates a fresh live caps object on success. -/
def capsFromString (env : Engine) (s : PState) (spec : String) :
    Option Nat × PState :=
  if env.capsOk spec then
    (some s.nextId, { s with nextId := s.nextId + 1, liveCaps := s.nextId :: s.liveCaps })
  else (none, s)

/-- Two-argument `GStreamPipeline::addElement` (lines 124-134): create the
element, check `GST_IS_ELEMENT`, store `{new_element, NULL}` in the map and
return true; return false when creation failed. -/
def addElement (env : Engine) (s : PState) (element element_name : String) :
    Bool × PState :=
  let r := createElement env s element element_name
  match r.1 with
  | none => (false, r.2)
  | some id =>
    if id ∈ r.2.elems then
      (true, { r.2 with registry := insertReplace r.2.registry element_name (id, none) })
    else (false, r.2)

/-- Three-argument `GStreamPipeline::addElement` (lines 141-157): create the
element, parse the caps string, check `GST_IS_ELEMENT` then `GST_IS_CAPS`,
store `{new_element, caps}` in the map.  The source returns `false` on every
path, including the one that performed the map insertion (line 156 reads
`return false;`).  Failure paths release nothing: the parsed caps stays live
when the element check fails, and the attached element stays in the bin when
the caps check fails. -/
def addElementCaps (env : Engine) (s : PState)
    (element element_name element_caps : String) : Bool × PState :=
  let r := createElement env s element element_name
  let rc := capsFromString env r.2 element_caps
  match r.1 with
  | none => (false, rc.2)
  | some id =>
    if id ∈ rc.2.elems then
      match rc.1 with
      | none => (false, rc.2)
      | some cp =>
        if cp ∈ rc.2.liveCaps then
          (false, { rc.2 with registry := insertReplace rc.2.registry element_name (id, some cp) })
        else (false, rc.2)
    else (false, rc.2)

/-- Plain `gst_element_link` branch of `linkElement` (the `else if` at line
61): one link attempt, a link recorded on success, no caps touched. -/
def plainLink (env : Engine) (s : PState) (e c : Nat) : Bool × PState :=
  let s1 := { s with linkAttempts := s.linkAttempts ++ [(e, c)] }
  if env.linkOk e c then
    (true, { s1 with links := s1.links ++ [(e, c)] })
  else (false, s1)

/-- `GStreamPipeline::linkElement` (lines 36-67): `GST_IS_ELEMENT` checks on
both sides, then either a filtered link (`gst_element_link_filtered` followed
by `gst_caps_unref` on both outcomes) when `GST_IS_CAPS(caps)` holds, or a
plain `gst_element_link`. -/
def linkElement (env : Engine) (s : PState) (element caps child : Option Nat) :
    Bool × PState :=
  match element, child with
  | some e, some c =>
    if e ∈ s.elems then
      if c ∈ s.elems then
        match caps with
        | some cp =>
          if cp ∈ s.liveCaps then
            let s1 := { s with
              linkAttempts := s.linkAttempts ++ [(e, c)],
              filteredAttempts := s.filteredAttempts ++ [(e, c, cp)],
              liveCaps := s.liveCaps.erase cp }
            if env.linkFilteredOk e c cp then
              (true, { s1 with links := s1.links ++ [(e, c)] })
            else (false, s1)
          else plainLink env s e c
        | none => plainLink env s e c
      else (false, s)
    else (false, s)
  | _, _ => (false, s)

/-- `GStreamPipeline::linkElementsByName` (lines 163-191): walk the name list
with a one-element lookahead, look both names up in the map, link the found
pairs in order, stop at the first failure. -/
def linkElementsByName (env : Engine) : PState → List String → Bool × PState
  | s, [] => (true, s)
  | s, [_] => (true, s)
  | s, a :: b :: rest =>
    match lookupReg s.registry a, lookupReg s.registry b with
    | none, _ => (false, s)
    | some _, none => (false, s)
    | some pa, some pb =>
      let r := linkElement env s (some pa.1) pa.2 (some pb.1)
      if r.1 then linkElementsByName env r.2 (b :: rest) else (false, r.2)

/-- Consecutive pairs `(names[i], names[i+1])` of a name sequence. -/
def consecPairs : List String → List (String × String)
  | [] => []
  | [_] => []
  | a :: b :: rest => (a, b) :: consecPairs (b :: rest)

/-- Modelled from the spec (section 4.2, `linkSequence`): one pairwise link
step — look both names up, fail if either is absent, otherwise link. -/
def linkPairByName (env : Engine) (s : PState) (a b : String) : Bool × PState :=
  match lookupReg s.registry a, lookupReg s.registry b with
  | some pa, some pb => linkElement env s (some pa.1) pa.2 (some pb.1)
  | _, _ => (false, s)

/-- Modelled from the spec (section 4.2, `linkSequence`): process the
consecutive pairs in index order, short-circuiting on the first failure; an
empty pair list succeeds trivially. -/
def linkSequenceSpec (env : Engine) : PState → List (String × String) → Bool × PState
  | s, [] => (true, s)
  | s, (a, b) :: rest =>
    let r := linkPairByName env s a b
    if r.1 then linkSequenceSpec env r.2 rest else (false, r.2)

/-- `GStreamPipeline::setElementSignal` (lines 200-212): map lookup,
`GST_IS_ELEMENT` check, `g_signal_connect`. -/
def setElementSignal (s : PState) (element_name signal_name : String) :
    Bool × PState :=
  match lookupReg s.registry element_name with
  | none => (false, s)
  | some p =>
    if p.1 ∈ s.elems then
      (true, { s with signals := s.signals ++ [(p.1, signal_name)] })
    else (false, s)

/-- `GStreamPipeline::setElementProperty` (lines 220-233): map lookup,
`GST_IS_ELEMENT` check, `g_object_set`.  The property value (a template
parameter in the source) is modelled opaquely as a number. -/
def setElementProperty (s : PState) (element_name property_name : String)
    (property_value : Nat) : Bool × PState :=
  match lookupReg s.registry element_name with
  | none => (false, s)
  | some p =>
    if p.1 ∈ s.elems then
      (true, { s with props := s.props ++ [(p.1, property_name, property_value)] })
    else (false, s)

/-- `GStreamPipeline::getElementByName` (lines 239-243): map lookup returning
the element pointer or NULL. -/
def getElementByName (s : PState) (element_name : String) : Option Nat :=
  match lookupReg s.registry element_name with
  | some p => some p.1
  | none => none

/-- `GStreamPipeline::setElementState` (lines 257-264): map lookup, then
`gst_element_set_state`; result compared against `GST_STATE_CHANGE_FAILURE`. -/
def setElementState (env : Engine) (s : PState) (element_name : String)
    (state : GstState) : Bool × PState :=
  match lookupReg s.registry element_name with
  | none => (false, s)
  | some p =>
    (env.setStateOk p.1 state, { s with stateReqs := s.stateReqs ++ [(p.1, state)] })

/-- Pad-level world for the `onPadAdded` callback: which target elements have
their static "sink" pad linked, and the successful pad links, in order. -/
structure PadWorld where
  sinkLinked : List Nat
  padLinks : List (Nat × String × Nat)
deriving DecidableEq, Repr

/-- `onPadAdded` (src/main.cpp lines 293-303): fetch the target's static
"sink" pad; if it is already linked, return without doing anything; otherwise
call `gst_element_link_pads` (whose result the source ignores) — on success
the target's sink pad becomes linked. -/
def onPadAdded (env : Engine) (w : PadWorld) (element : Nat) (padName : String)
    (data : Nat) : PadWorld :=
  if data ∈ w.sinkLinked then w
  else if env.padLinkOk element padName data then
    { sinkLinked := data :: w.sinkLinked,
      padLinks := w.padLinks ++ [(element, padName, data)] }
  else w

/-- Count of successful pad links whose target is a given element. -/
def countTarget (l : List (Nat × String × Nat)) (d : Nat) : Nat :=
  (l.filter (fun t => t.2.2 == d)).length

/-- Operations a client can issue against one pipeline object. -/
inductive Op where
  | add (plugin name : String)
  | addCaps (plugin name capsSpec : String)
  | link (names : List String)
  | signal (name sig : String)
  | prop (name key : String) (value : Nat)
  | setState (name : String) (st : GstState)
deriving DecidableEq, Repr

/-- State effect of one operation. -/
def step (env : Engine) (s : PState) : Op → PState
  | .add p n => (addElement env s p n).2
  | .addCaps p n c => (addElementCaps env s p n c).2
  | .link ns => (linkElementsByName env s ns).2
  | .signal n sg => (setElementSignal s n sg).2
  | .prop n k v => (setElementProperty s n k v).2
  | .setState n st => (setElementState env s n st).2

/-- Run a sequence of operations. -/
def run (env : Engine) : PState → List Op → PState
  | s, [] => s
  | s, op :: rest => run env (step env s op) rest

/-- Run a sequence of two-argument creates `(pluginType, name)`. -/
def runCreates (env : Engine) : PState → List (String × String) → PState
  | s, [] => s
  | s, c :: rest => runCreates env (addElement env s c.1 c.2).2 rest

/-- Every create of the sequence returned true. -/
def allSucceed (env : Engine) : PState → List (String × String) → Bool
  | _, [] => true
  | s, c :: rest =>
    (addElement env s c.1 c.2).1 && allSucceed env (addElement env s c.1 c.2).2 rest

/-- Every registry entry refers to an element that is live and attached to
the pipeline bin. -/
def RegValid (s : PState) : Prop :=
  ∀ p ∈ s.registry, p.2.1 ∈ s.elems ∧ p.2.1 ∈ s.attached

/-- Engine in which every native call succeeds. -/
def envAll : Engine :=
  { factoryOk := fun _ _ => true
    binAddOk := fun _ => true
    capsOk := fun _ => true
    linkOk := fun _ _ => true
    linkFilteredOk := fun _ _ _ => true
    setStateOk := fun _ _ => true
    padLinkOk := fun _ _ _ => true }

/-- Engine in which element creation fails but caps parsing succeeds. -/
def envNoFactory : Engine :=
  { envAll with factoryOk := fun _ _ => false }

/-- Engine in which only the pad named "p2" can be linked. -/
def envPadSecond : Engine :=
  { envAll with padLinkOk := fun _ p _ => p == "p2" }

/-- Pad world whose element 2 already has a linked sink pad. -/
def wLinked : PadWorld :=
  { sinkLinked := [2], padLinks := [] }

/-- State with two live attached elements (ids 1, 2) and one live caps
object (id 5). -/
def sTwoElems : PState :=
  { pipeline := some 0
    registry := []
    elems := [0, 1, 2]
    attached := [1, 2]
    liveCaps := [5]
    links := []
    linkAttempts := []
    filteredAttempts := []
    signals := []
    props := []
    stateReqs := []
    nextId := 6 }

/-! ### Registry (association list) lemmas -/

theorem lookupReg_eraseKey (m : List (String × RegEntry)) (k n : String)
    (h : n ≠ k) : lookupReg (eraseKey m k) n = lookupReg m n := by
  induction m with
  | nil => rfl
  | cons hd tl ih =>
    obtain ⟨k0, v0⟩ := hd
    by_cases hk : k0 = k
    · have h1 : ¬ (k0 = n) := fun hh => h (hh ▸ hk)
      have h2 : ¬ (k = n) := fun hh => h hh.symm
      simp [eraseKey, lookupReg, hk, h1, h2, ih]
    · by_cases hn : k0 = n <;> simp [eraseKey, lookupReg, hk, hn, h, ih]

theorem lookupReg_insertReplace_self (m : List (String × RegEntry)) (k : String)
    (v : RegEntry) : lookupReg (insertReplace m k v) k = some v := by
  simp [insertReplace, lookupReg]

theorem lookupReg_insertReplace_other (m : List (String × RegEntry))
    (k n : String) (v : RegEntry) (h : n ≠ k) :
    lookupReg (insertReplace m k v) n = lookupReg m n := by
  have hkn : ¬ (k = n) := fun hh => h hh.symm
  simp [insertReplace, lookupReg, hkn, lookupReg_eraseKey m k n h]

theorem countKey_eraseKey (m : List (String × RegEntry)) (k : String) :
    countKey (eraseKey m k) k = 0 := by
  induction m with
  | nil => rfl
  | cons hd tl ih =>
    obtain ⟨k0, v0⟩ := hd
    by_cases hk : k0 = k <;> simp [eraseKey, countKey, hk, ih]

theorem countKey_insertReplace (m : List (String × RegEntry)) (k : String)
    (v : RegEntry) : countKey (insertReplace m k v) k = 1 := by
  simp [insertReplace, countKey, countKey_eraseKey]

theorem eraseKey_mem {m : List (String × RegEntry)} {k : String}
    {p : String × RegEntry} (h : p ∈ eraseKey m k) : p ∈ m := by
  induction m with
  | nil => simp [eraseKey] at h
  | cons hd tl ih =>
    obtain ⟨k0, v0⟩ := hd
    by_cases hk : k0 = k
    · rw [eraseKey, if_pos hk] at h
      exact List.mem_cons_of_mem _ (ih h)
    · rw [eraseKey, if_neg hk] at h
      rcases List.mem_cons.mp h with h | h
      · exact h ▸ List.mem_cons_self _ _
      · exact List.mem_cons_of_mem _ (ih h)

theorem lookupReg_mem {m : List (String × RegEntry)} {n : String} {v : RegEntry}
    (h : lookupReg m n = some v) : (n, v) ∈ m := by
  induction m with
  | nil => simp [lookupReg] at h
  | cons hd tl ih =>
    obtain ⟨k0, v0⟩ := hd
    by_cases hk : k0 = n
    · rw [lookupReg, if_pos hk] at h
      injection h with hv
      exact List.mem_cons.mpr (Or.inl (by rw [hk, hv]))
    · rw [lookupReg, if_neg hk] at h
      exact List.mem_cons_of_mem _ (ih h)

theorem getElementByName_congr {s1 s2 : PState} (h : s1.registry = s2.registry)
    (n : String) : getElementByName s1 n = getElementByName s2 n := by
  unfold getElementByName
  rw [h]

/-! ### `createElement` and `capsFromString` lemmas -/

theorem createElement_some {env : Engine} {s : PState} {p n : String} {id : Nat}
    (h : (createElement env s p n).1 = some id) :
    id = s.nextId
    ∧ (createElement env s p n).2.elems = s.nextId :: s.elems
    ∧ (createElement env s p n).2.attached = s.nextId :: s.attached
    ∧ (createElement env s p n).2.registry = s.registry
    ∧ (createElement env s p n).2.liveCaps = s.liveCaps
    ∧ (createElement env s p n).2.pipeline = s.pipeline
    ∧ (createElement env s p n).2.nextId = s.nextId + 1 := by
  cases hp : s.pipeline with
  | none => simp [createElement, hp] at h
  | some q =>
    by_cases hf : env.factoryOk p n = true
    · by_cases hb : env.binAddOk s.nextId = true
      · simp [createElement, hp, hf, hb] at h ⊢
        exact h.symm
      · simp [createElement, hp, hf, hb] at h
    · simp [createElement, hp, hf] at h

theorem createElement_none {env : Engine} {s : PState} {p n : String}
    (h : (createElement env s p n).1 = none) :
    (createElement env s p n).2.registry = s.registry
    ∧ (createElement env s p n).2.elems = s.elems
    ∧ (createElement env s p n).2.attached = s.attached
    ∧ (createElement env s p n).2.liveCaps = s.liveCaps
    ∧ (createElement env s p n).2.pipeline = s.pipeline := by
  cases hp : s.pipeline with
  | none => simp [createElement, hp]
  | some q =>
    by_cases hf : env.factoryOk p n = true
    · by_cases hb : env.binAddOk s.nextId = true
      · simp [createElement, hp, hf, hb] at h
      · simp [createElement, hp, hf, hb]
    · simp [createElement, hp, hf]

theorem capsFromString_fields (env : Engine) (s : PState) (spec : String) :
    (capsFromString env s spec).2.registry = s.registry
    ∧ (capsFromString env s spec).2.elems = s.elems
    ∧ (capsFromString env s spec).2.attached = s.attached
    ∧ (capsFromString env s spec).2.pipeline = s.pipeline := by
  unfold capsFromString
  by_cases hc : env.capsOk spec <;> simp [hc]

theorem capsFromString_none {env : Engine} {s : PState} {spec : String}
    (h : (capsFromString env s spec).1 = none) :
    (capsFromString env s spec).2 = s := by
  unfold capsFromString at h ⊢
  by_cases hc : env.capsOk spec
  · simp [hc] at h
  · simp [hc]

/-! ### `addElement` lemmas -/

theorem addElement_true_fields {env : Engine} {s : PState} {p n : String}
    (h : (addElement env s p n).1 = true) :
    (addElement env s p n).2.registry = insertReplace s.registry n (s.nextId, none)
    ∧ (addElement env s p n).2.elems = s.nextId :: s.elems
    ∧ (addElement env s p n).2.attached = s.nextId :: s.attached
    ∧ (addElement env s p n).2.liveCaps = s.liveCaps
    ∧ (addElement env s p n).2.pipeline = s.pipeline
    ∧ (addElement env s p n).2.nextId = s.nextId + 1 := by
  simp only [addElement] at h ⊢
  cases hr : (createElement env s p n).1 with
  | none => rw [hr] at h; simp at h
  | some id =>
    obtain ⟨hid, he, ha, hg, hc, hpl, hx⟩ := createElement_some hr
    subst hid
    simp [he, ha, hg, hc, hpl, hx]

theorem addElement_false_fields {env : Engine} {s : PState} {p n : String}
    (h : (addElement env s p n).1 = false) :
    (addElement env s p n).2.registry = s.registry
    ∧ (addElement env s p n).2.elems = s.elems
    ∧ (addElement env s p n).2.attached = s.attached
    ∧ (addElement env s p n).2.liveCaps = s.liveCaps
    ∧ (addElement env s p n).2.pipeline = s.pipeline := by
  simp only [addElement] at h ⊢
  cases hr : (createElement env s p n).1 with
  | none =>
    obtain ⟨hg, he, ha, hc, hpl⟩ := createElement_none hr
    simp [hg, he, ha, hc, hpl]
  | some id =>
    obtain ⟨hid, he, ha, hg, hc, hpl, hx⟩ := createElement_some hr
    subst hid
    rw [hr] at h
    simp [he] at h

theorem addElement_true_of_conds {env : Engine} {s : PState} {p n : String}
    (hp : s.pipeline ≠ none) (hf : env.factoryOk p n = true)
    (hb : env.binAddOk s.nextId = true) :
    (addElement env s p n).1 = true := by
  cases hpl : s.pipeline with
  | none => exact absurd hpl hp
  | some q => simp [addElement, createElement, hpl, hf, hb]

theorem addElement_true_pipeline {env : Engine} {s : PState} {p n : String}
    (h : (addElement env s p n).1 = true) : s.pipeline ≠ none := by
  intro hpl
  simp [addElement, createElement, hpl] at h

theorem addElement_success_lookup {env : Engine} {s : PState} {p n : String}
    (h : (addElement env s p n).1 = true) :
    getElementByName (addElement env s p n).2 n = some s.nextId := by
  unfold getElementByName
  rw [(addElement_true_fields h).1, lookupReg_insertReplace_self]

theorem addElement_other_lookup (env : Engine) (s : PState) (p n : String)
    {n2 : String} (h : n2 ≠ n) :
    getElementByName (addElement env s p n).2 n2 = getElementByName s n2 := by
  cases hr : (addElement env s p n).1 with
  | false =>
    exact getElementByName_congr (addElement_false_fields hr).1 n2
  | true =>
    unfold getElementByName
    rw [(addElement_true_fields hr).1, lookupReg_insertReplace_other _ _ _ _ h]

/-! ### `linkElement` and `linkElementsByName` lemmas -/

theorem plainLink_fields (env : Engine) (s : PState) (e c : Nat) :
    (plainLink env s e c).2.registry = s.registry
    ∧ (plainLink env s e c).2.elems = s.elems
    ∧ (plainLink env s e c).2.attached = s.attached
    ∧ (plainLink env s e c).2.liveCaps = s.liveCaps
    ∧ (plainLink env s e c).2.pipeline = s.pipeline
    ∧ (plainLink env s e c).2.filteredAttempts = s.filteredAttempts
    ∧ (plainLink env s e c).2.nextId = s.nextId := by
  unfold plainLink
  by_cases hl : env.linkOk e c = true <;> simp [hl]

theorem linkElement_fields (env : Engine) (s : PState) (el cp ch : Option Nat) :
    (linkElement env s el cp ch).2.registry = s.registry
    ∧ (linkElement env s el cp ch).2.elems = s.elems
    ∧ (linkElement env s el cp ch).2.attached = s.attached
    ∧ (linkElement env s el cp ch).2.pipeline = s.pipeline
    ∧ (linkElement env s el cp ch).2.nextId = s.nextId := by
  rcases el with _ | e
  · simp [linkElement]
  rcases ch with _ | c
  · simp [linkElement]
  by_cases he : e ∈ s.elems
  · by_cases hc : c ∈ s.elems
    · rcases cp with _ | p
      · simpa [linkElement, he, hc] using
          ⟨(plainLink_fields env s e c).1, (plainLink_fields env s e c).2.1,
           (plainLink_fields env s e c).2.2.1, (plainLink_fields env s e c).2.2.2.2.1,
           (plainLink_fields env s e c).2.2.2.2.2.2⟩
      · by_cases hp : p ∈ s.liveCaps
        · by_cases hf : env.linkFilteredOk e c p = true <;>
            simp [linkElement, he, hc, hp, hf]
        · simpa [linkElement, he, hc, hp] using
            ⟨(plainLink_fields env s e c).1, (plainLink_fields env s e c).2.1,
             (plainLink_fields env s e c).2.2.1, (plainLink_fields env s e c).2.2.2.2.1,
             (plainLink_fields env s e c).2.2.2.2.2.2⟩
    · simp [linkElement, he, hc]
  · simp [linkElement, he]

theorem linkElement_links (env : Engine) (s : PState) (el cp ch : Option Nat) :
    ∃ t, (linkElement env s el cp ch).2.links = s.links ++ t := by
  rcases el with _ | e
  · exact ⟨[], by simp [linkElement]⟩
  rcases ch with _ | c
  · exact ⟨[], by simp [linkElement]⟩
  by_cases he : e ∈ s.elems
  · by_cases hc : c ∈ s.elems
    · have hplain : ∃ t, (plainLink env s e c).2.links = s.links ++ t := by
        unfold plainLink
        by_cases hl : env.linkOk e c = true
        · exact ⟨[(e, c)], by simp [hl]⟩
        · exact ⟨[], by simp [hl]⟩
      rcases cp with _ | p
      · simpa [linkElement, he, hc] using hplain
      · by_cases hp : p ∈ s.liveCaps
        · by_cases hf : env.linkFilteredOk e c p = true
          · exact ⟨[(e, c)], by simp [linkElement, he, hc, hp, hf]⟩
          · exact ⟨[], by simp [linkElement, he, hc, hp, hf]⟩
        · simpa [linkElement, he, hc, hp] using hplain
    · exact ⟨[], by simp [linkElement, he, hc]⟩
  · exact ⟨[], by simp [linkElement, he]⟩

theorem linkElement_filtered {env : Engine} {s : PState} {e c p : Nat}
    (he : e ∈ s.elems) (hc : c ∈ s.elems) (hp : p ∈ s.liveCaps) :
    (linkElement env s (some e) (some p) (some c)).2.liveCaps = s.liveCaps.erase p
    ∧ (linkElement env s (some e) (some p) (some c)).2.filteredAttempts
        = s.filteredAttempts ++ [(e, c, p)] := by
  by_cases hf : env.linkFilteredOk e c p = true <;>
    simp [linkElement, he, hc, hp, hf]

theorem linkElement_dead_caps {env : Engine} {s : PState} {e c p : Nat}
    (he : e ∈ s.elems) (hc : c ∈ s.elems) (hp : p ∉ s.liveCaps) :
    (linkElement env s (some e) (some p) (some c)).2.filteredAttempts = s.filteredAttempts
    ∧ (linkElement env s (some e) (some p) (some c)).2.liveCaps = s.liveCaps := by
  simpa [linkElement, he, hc, hp] using
    ⟨(plainLink_fields env s e c).2.2.2.2.2.1, (plainLink_fields env s e c).2.2.2.1⟩

theorem linkByName_fields (env : Engine) :
    ∀ (names : List String) (s : PState),
    (linkElementsByName env s names).2.registry = s.registry
    ∧ (linkElementsByName env s names).2.elems = s.elems
    ∧ (linkElementsByName env s names).2.attached = s.attached
    ∧ (linkElementsByName env s names).2.pipeline = s.pipeline
  | [], s => by simp [linkElementsByName]
  | [a], s => by simp [linkElementsByName]
  | a :: b :: rest, s => by
    simp only [linkElementsByName]
    cases hA : lookupReg s.registry a with
    | none => simp
    | some pa =>
      cases hB : lookupReg s.registry b with
      | none => simp
      | some pb =>
        obtain ⟨h1, h2, h3, h4, _⟩ := linkElement_fields env s (some pa.1) pa.2 (some pb.1)
        cases hr : (linkElement env s (some pa.1) pa.2 (some pb.1)).1 with
        | false => simp [hr, h1, h2, h3, h4]
        | true =>
          obtain ⟨g1, g2, g3, g4⟩ :=
            linkByName_fields env (b :: rest) (linkElement env s (some pa.1) pa.2 (some pb.1)).2
          simp [hr, g1, g2, g3, g4, h1, h2, h3, h4]

/-! ### Frame lemmas for signal/property/state operations -/

theorem setElementSignal_fields (s : PState) (n sg : String) :
    (setElementSignal s n sg).2.registry = s.registry
    ∧ (setElementSignal s n sg).2.elems = s.elems
    ∧ (setElementSignal s n sg).2.attached = s.attached
    ∧ (setElementSignal s n sg).2.liveCaps = s.liveCaps
    ∧ (setElementSignal s n sg).2.pipeline = s.pipeline := by
  unfold setElementSignal
  cases hA : lookupReg s.registry n with
  | none => simp
  | some p => by_cases hp : p.1 ∈ s.elems <;> simp [hp]

theorem setElementProperty_fields (s : PState) (n k : String) (v : Nat) :
    (setElementProperty s n k v).2.registry = s.registry
    ∧ (setElementProperty s n k v).2.elems = s.elems
    ∧ (setElementProperty s n k v).2.attached = s.attached
    ∧ (setElementProperty s n k v).2.liveCaps = s.liveCaps
    ∧ (setElementProperty s n k v).2.pipeline = s.pipeline := by
  unfold setElementProperty
  cases hA : lookupReg s.registry n with
  | none => simp
  | some p => by_cases hp : p.1 ∈ s.elems <;> simp [hp]

theorem setElementState_fields (env : Engine) (s : PState) (n : String)
    (st : GstState) :
    (setElementState env s n st).2.registry = s.registry
    ∧ (setElementState env s n st).2.elems = s.elems
    ∧ (setElementState env s n st).2.attached = s.attached
    ∧ (setElementState env s n st).2.liveCaps = s.liveCaps
    ∧ (setElementState env s n st).2.pipeline = s.pipeline := by
  unfold setElementState
  cases hA : lookupReg s.registry n with
  | none => simp
  | some p => simp

/-! ### Claim theorems -/

/-- C1: the three-argument create is claimed to return success when the
plugin is available, attachment succeeds and the filter spec parses.  The
code contradicts this: with an engine in which every native call succeeds,
`addElementCaps` creates the element (id 1), attaches it, parses the caps
(id 2) and inserts the handle into the registry, yet still returns `false`
(line 156 of `src/main.cpp` reads `return false;` on the success path). -/
theorem c1_success_path_returns_false :
    (addElementCaps envAll initState "videoconvert" "videoconvert"
        "video/x-raw, format=(string)I420").1 = false
    ∧ getElementByName (addElementCaps envAll initState "videoconvert"
        "videoconvert" "video/x-raw, format=(string)I420").2 "videoconvert"
        = some 1
    ∧ 1 ∈ (addElementCaps envAll initState "videoconvert" "videoconvert"
        "video/x-raw, format=(string)I420").2.attached
    ∧ 2 ∈ (addElementCaps envAll initState "videoconvert" "videoconvert"
        "video/x-raw, format=(string)I420").2.liveCaps := by
  decide

/-- C2: a filtered link releases the capability filter exactly once, at the
first filtered link attempt (both elements live, filter live), regardless of
the attempt's outcome; a second `linkElement` call presenting the same filter
instance makes no further filtered attempt (the released caps no longer
validates as a caps object) and does not release it again, so it cannot
succeed from that filter instance. -/
theorem c2_filter_consumed_once (env : Engine) (s : PState) (e c e2 c2 p : Nat)
    (he : e ∈ s.elems) (hc : c ∈ s.elems) (he2 : e2 ∈ s.elems)
    (hc2 : c2 ∈ s.elems) (hp : s.liveCaps.count p = 1) :
    (linkElement env s (some e) (some p) (some c)).2.liveCaps.count p = 0
    ∧ (linkElement env s (some e) (some p) (some c)).2.filteredAttempts
        = s.filteredAttempts ++ [(e, c, p)]
    ∧ (linkElement env (linkElement env s (some e) (some p) (some c)).2
         (some e2) (some p) (some c2)).2.filteredAttempts
        = (linkElement env s (some e) (some p) (some c)).2.filteredAttempts
    ∧ (linkElement env (linkElement env s (some e) (some p) (some c)).2
         (some e2) (some p) (some c2)).2.liveCaps.count p = 0 := by
  have hpmem : p ∈ s.liveCaps := List.count_pos_iff.mp (by omega)
  obtain ⟨hlc, hfa⟩ := @linkElement_filtered env s e c p he hc hpmem
  have hcount : (linkElement env s (some e) (some p) (some c)).2.liveCaps.count p = 0 := by
    rw [hlc, List.count_erase_self, hp]
  have hnot : p ∉ (linkElement env s (some e) (some p)
      (some c)).2.liveCaps := List.count_eq_zero.mp hcount
  have helems := (linkElement_fields env s (some e) (some p) (some c)).2.1
  obtain ⟨hfa2, hlc2⟩ := @linkElement_dead_caps env
    (linkElement env s (some e) (some p) (some c)).2 e2 c2 p
    (helems ▸ he2) (helems ▸ hc2) hnot
  exact ⟨hcount, hfa, hfa2, by rw [hlc2]; exact hcount⟩

/-- Witness for C2 at a concrete state: elements 1 and 2 live, caps 5 live
with multiplicity one, all-succeeding engine. -/
theorem c2_witness :
    (1 ∈ sTwoElems.elems ∧ 2 ∈ sTwoElems.elems ∧ sTwoElems.liveCaps.count 5 = 1)
    ∧ ((linkElement envAll sTwoElems (some 1) (some 5) (some 2)).2.liveCaps.count 5 = 0
       ∧ (linkElement envAll sTwoElems (some 1) (some 5) (some 2)).2.filteredAttempts
           = sTwoElems.filteredAttempts ++ [(1, 2, 5)]
       ∧ (linkElement envAll (linkElement envAll sTwoElems (some 1) (some 5) (some 2)).2
            (some 1) (some 5) (some 2)).2.filteredAttempts
           = (linkElement envAll sTwoElems (some 1) (some 5) (some 2)).2.filteredAttempts
       ∧ (linkElement envAll (linkElement envAll sTwoElems (some 1) (some 5) (some 2)).2
            (some 1) (some 5) (some 2)).2.liveCaps.count 5 = 0) :=
  ⟨⟨by decide, by decide, by decide⟩,
   c2_filter_consumed_once envAll sTwoElems 1 2 1 2 5 (by decide) (by decide)
     (by decide) (by decide) (by decide)⟩

/-- C5 counterexample: with an engine in which the first appearing pad fails
to link and the second succeeds, and a target whose sink pad is not yet
linked, the first invocation of `onPadAdded` changes nothing but the second
invocation does perform the link — so "the second invocation is a no-op",
as the claim states it, is false. -/
theorem c5_counterexample :
    onPadAdded envPadSecond ({ sinkLinked := [], padLinks := [] } : PadWorld)
        1 "p1" 2 = { sinkLinked := [], padLinks := [] }
    ∧ onPadAdded envPadSecond
        (onPadAdded envPadSecond { sinkLinked := [], padLinks := [] } 1 "p1" 2)
        1 "p2" 2
      ≠ onPadAdded envPadSecond { sinkLinked := [], padLinks := [] } 1 "p1" 2 := by
  decide

/-- C5 amended: an invocation of `onPadAdded` whose target sink pad is
already linked is a no-op; two invocations for two ports of the same source
against the same target perform at most one link in total; and the second
invocation is a no-op whenever the target's sink pad is linked after the
first invocation (in particular whenever the first invocation performed the
link). -/
theorem c5_pad_added_amended (env : Engine) (w : PadWorld) (e : Nat)
    (p1 p2 : String) (d : Nat) :
    (d ∈ w.sinkLinked → onPadAdded env w e p1 d = w)
    ∧ countTarget (onPadAdded env (onPadAdded env w e p1 d) e p2 d).padLinks d
        ≤ countTarget w.padLinks d + 1
    ∧ (d ∈ (onPadAdded env w e p1 d).sinkLinked →
        onPadAdded env (onPadAdded env w e p1 d) e p2 d = onPadAdded env w e p1 d) := by
  refine ⟨fun h => by simp [onPadAdded, h], ?_, fun h => ?_⟩
  case refine_2 =>
    generalize onPadAdded env w e p1 d = w1 at h ⊢
    simp [onPadAdded, h]
  by_cases h0 : d ∈ w.sinkLinked
  · simp [onPadAdded, h0]
  · by_cases hl1 : env.padLinkOk e p1 d = true
    · simp [onPadAdded, h0, hl1, countTarget, List.filter_append]
    · by_cases hl2 : env.padLinkOk e p2 d = true <;>
        simp [onPadAdded, h0, hl1, hl2, countTarget, List.filter_append]

/-- Witness for C5 amended: target 2 already linked, so the invocation is a
no-op and a following invocation is one as well. -/
theorem c5_witness :
    (2 ∈ wLinked.sinkLinked ∧ onPadAdded envAll wLinked 1 "p1" 2 = wLinked)
    ∧ (2 ∈ (onPadAdded envAll wLinked 1 "p1" 2).sinkLinked
       ∧ onPadAdded envAll (onPadAdded envAll wLinked 1 "p1" 2) 1 "p2" 2
           = onPadAdded envAll wLinked 1 "p1" 2) :=
  ⟨⟨by decide, (c5_pad_added_amended envAll wLinked 1 "p1" "p2" 2).1 (by decide)⟩,
   ⟨by decide, (c5_pad_added_amended envAll wLinked 1 "p1" "p2" 2).2.2 (by decide)⟩⟩

/-- C7: two create calls with the same name in one graph are not rejected:
when the engine lets the second creation succeed, the second `addElement`
returns true, the registry keeps exactly one entry under the name, and that
entry is the handle allocated by the later call. -/
theorem c7_last_write_wins (env : Engine) (s : PState) (p1 p2 n : String)
    (h1 : (addElement env s p1 n).1 = true)
    (hf : env.factoryOk p2 n = true)
    (hb : env.binAddOk (addElement env s p1 n).2.nextId = true) :
    (addElement env (addElement env s p1 n).2 p2 n).1 = true
    ∧ countKey (addElement env (addElement env s p1 n).2 p2 n).2.registry n = 1
    ∧ getElementByName (addElement env (addElement env s p1 n).2 p2 n).2 n
        = some (addElement env s p1 n).2.nextId := by
  have hpl : (addElement env s p1 n).2.pipeline ≠ none := by
    rw [(addElement_true_fields h1).2.2.2.2.1]
    exact addElement_true_pipeline h1
  have h2 : (addElement env (addElement env s p1 n).2 p2 n).1 = true :=
    addElement_true_of_conds hpl hf hb
  refine ⟨h2, ?_, addElement_success_lookup h2⟩
  rw [(addElement_true_fields h2).1, countKey_insertReplace]

/-- Witness for C7: create "a" twice from plugin types "p" then "q" with an
all-succeeding engine. -/
theorem c7_witness :
    ((addElement envAll initState "p" "a").1 = true
     ∧ envAll.factoryOk "q" "a" = true
     ∧ envAll.binAddOk (addElement envAll initState "p" "a").2.nextId = true)
    ∧ ((addElement envAll (addElement envAll initState "p" "a").2 "q" "a").1 = true
       ∧ countKey (addElement envAll (addElement envAll initState "p" "a").2
           "q" "a").2.registry "a" = 1
       ∧ getElementByName (addElement envAll (addElement envAll initState "p" "a").2
           "q" "a").2 "a" = some (addElement envAll initState "p" "a").2.nextId) :=
  ⟨⟨by decide, by decide, by decide⟩,
   c7_last_write_wins envAll initState "p" "q" "a" (by decide) (by decide) (by decide)⟩

/-- C9: `setElementProperty` on a name absent from the registry returns
false and leaves the whole state — in particular the registry mapping —
unchanged. -/
theorem c9_set_property_missing (s : PState) (n k : String) (v : Nat)
    (h : lookupReg s.registry n = none) :
    (setElementProperty s n k v).1 = false
    ∧ (setElementProperty s n k v).2 = s := by
  simp [setElementProperty, h]

/-- Witness for C9: the fresh pipeline state has no entry named "missing". -/
theorem c9_witness :
    lookupReg initState.registry "missing" = none
    ∧ (setElementProperty initState "missing" "k" 0).1 = false
    ∧ (setElementProperty initState "missing" "k" 0).2 = initState :=
  ⟨rfl, c9_set_property_missing initState "missing" "k" 0 rfl⟩

/-- C10: only create mutates the registry: `linkElementsByName`,
`setElementSignal`, `setElementProperty` and `setElementState` leave the
registry mapping unchanged on every input (and `getElementByName` is a pure
function of the state, so it cannot mutate anything). -/
theorem c10_only_create_mutates (env : Engine) (s : PState)
    (names : List String) (n sg k : String) (v : Nat) (st : GstState) :
    (linkElementsByName env s names).2.registry = s.registry
    ∧ (setElementSignal s n sg).2.registry = s.registry
    ∧ (setElementProperty s n k v).2.registry = s.registry
    ∧ (setElementState env s n st).2.registry = s.registry :=
  ⟨(linkByName_fields env names s).1, (setElementSignal_fields s n sg).1,
   (setElementProperty_fields s n k v).1, (setElementState_fields env s n st).1⟩

/-! ### C3: linkSequence behaviour -/

theorem linkSeq_spec_eq (env : Engine) :
    ∀ (names : List String) (s : PState),
    linkElementsByName env s names = linkSequenceSpec env s (consecPairs names)
  | [], s => rfl
  | [a], s => rfl
  | a :: b :: rest, s => by
    simp only [linkElementsByName, consecPairs, linkSequenceSpec, linkPairByName]
    cases hA : lookupReg s.registry a with
    | none => rfl
    | some pa =>
      cases hB : lookupReg s.registry b with
      | none => rfl
      | some pb =>
        cases hr : (linkElement env s (some pa.1) pa.2 (some pb.1)).1 with
        | false => simp [hr]
        | true =>
          simp only [hr, if_true]
          exact linkSeq_spec_eq env (b :: rest) _

theorem linkByName_links (env : Engine) :
    ∀ (names : List String) (s : PState),
    ∃ t, (linkElementsByName env s names).2.links = s.links ++ t
  | [], s => ⟨[], by simp [linkElementsByName]⟩
  | [a], s => ⟨[], by simp [linkElementsByName]⟩
  | a :: b :: rest, s => by
    simp only [linkElementsByName]
    cases hA : lookupReg s.registry a with
    | none => exact ⟨[], by simp⟩
    | some pa =>
      cases hB : lookupReg s.registry b with
      | none => exact ⟨[], by simp⟩
      | some pb =>
        obtain ⟨t1, ht1⟩ := linkElement_links env s (some pa.1) pa.2 (some pb.1)
        cases hr : (linkElement env s (some pa.1) pa.2 (some pb.1)).1 with
        | false => exact ⟨t1, by simp [hr, ht1]⟩
        | true =>
          obtain ⟨t2, ht2⟩ := linkByName_links env (b :: rest)
            (linkElement env s (some pa.1) pa.2 (some pb.1)).2
          exact ⟨t1 ++ t2, by simp [hr, ht2, ht1]⟩

/-- C3: `linkElementsByName` behaves exactly as the spec's `linkSequence`
description: it processes the consecutive pairs `(names[i], names[i+1])` in
index order, short-circuiting at the first pair whose lookup or link fails
(`linkSeq_spec_eq`); it never removes an established link (the final link
list extends the initial one — no rollback); and an empty or single-element
sequence returns success with the state untouched. -/
theorem c3_link_sequence (env : Engine) (s : PState) (names : List String) :
    linkElementsByName env s names = linkSequenceSpec env s (consecPairs names)
    ∧ (∃ t, (linkElementsByName env s names).2.links = s.links ++ t)
    ∧ (names.length ≤ 1 → linkElementsByName env s names = (true, s)) := by
  refine ⟨linkSeq_spec_eq env names s, linkByName_links env names s, ?_⟩
  intro h
  match names with
  | [] => rfl
  | [a] => rfl
  | a :: b :: rest => simp at h

/-- Witness for C3 at a one-element sequence. -/
theorem c3_witness :
    (["a"].length ≤ 1)
    ∧ linkElementsByName envAll initState ["a"] = (true, initState) :=
  ⟨by decide, (c3_link_sequence envAll initState ["a"]).2.2 (by decide)⟩

/-! ### C4: cleanup on failing create -/

theorem createElement_some_conds {env : Engine} {s : PState} {p n : String}
    {id : Nat} (h : (createElement env s p n).1 = some id) :
    env.factoryOk p n = true ∧ env.binAddOk s.nextId = true := by
  cases hp : s.pipeline with
  | none => simp [createElement, hp] at h
  | some q =>
    by_cases hf : env.factoryOk p n = true
    · by_cases hb : env.binAddOk s.nextId = true
      · exact ⟨hf, hb⟩
      · simp [createElement, hp, hf, hb] at h
    · simp [createElement, hp, hf] at h

theorem addElementCaps_registry (env : Engine) (s : PState) (p n cs : String)
    (h : env.factoryOk p n = false ∨ env.binAddOk s.nextId = false
       ∨ env.capsOk cs = false) :
    (addElementCaps env s p n cs).2.registry = s.registry := by
  simp only [addElementCaps]
  cases hr : (createElement env s p n).1 with
  | none =>
    have h1 := (capsFromString_fields env (createElement env s p n).2 cs).1
    have h2 := (createElement_none hr).1
    simp [h1, h2]
  | some id =>
    obtain ⟨hf, hb⟩ := createElement_some_conds hr
    have hcaps : env.capsOk cs = false := by
      rcases h with h | h | h
      · simp [hf] at h
      · simp [hb] at h
      · exact h
    have hcsnone : (capsFromString env (createElement env s p n).2 cs).1 = none := by
      simp [capsFromString, hcaps]
    have hcseq : (capsFromString env (createElement env s p n).2 cs).2
        = (createElement env s p n).2 := capsFromString_none hcsnone
    have hreg := (createElement_some hr).2.2.2.1
    simp only [hcseq, hcsnone]
    by_cases hin : id ∈ (createElement env s p n).2.elems <;> simp [hin, hreg]

/-- C4 counterexample: with plugin creation failing but caps parsing
succeeding, the three-argument create fails, leaves the registry unchanged —
but the caps object it allocated during the call (id 1, not live before the
call) is still live when the call returns: the allocated native resource is
not released, contradicting the claim. -/
theorem c4_counterexample :
    envNoFactory.factoryOk "nosuchplugin" "x" = false
    ∧ (addElementCaps envNoFactory initState "nosuchplugin" "x" "video/x-raw").1 = false
    ∧ 1 ∉ initState.liveCaps
    ∧ 1 ∈ (addElementCaps envNoFactory initState "nosuchplugin" "x"
        "video/x-raw").2.liveCaps := by
  decide

/-- C4 amended: every failing create leaves the registry mapping unchanged;
the two-argument create additionally releases every native resource it
allocated (live elements, attachments and live caps are exactly as before
the call); the three-argument create only guarantees the unchanged registry
(it leaks the parsed caps when element creation fails, and leaves the
created element attached when caps parsing fails). -/
theorem c4_fail_frame (env : Engine) (s : PState) (p n cs : String) :
    ((addElement env s p n).1 = false →
       (addElement env s p n).2.registry = s.registry
       ∧ (addElement env s p n).2.elems = s.elems
       ∧ (addElement env s p n).2.attached = s.attached
       ∧ (addElement env s p n).2.liveCaps = s.liveCaps)
    ∧ (env.factoryOk p n = false ∨ env.binAddOk s.nextId = false
         ∨ env.capsOk cs = false →
       (addElementCaps env s p n cs).2.registry = s.registry) := by
  constructor
  · intro h
    obtain ⟨h1, h2, h3, h4, _⟩ := addElement_false_fields h
    exact ⟨h1, h2, h3, h4⟩
  · exact addElementCaps_registry env s p n cs

/-- Witness for C4 amended: failing factory for both create overloads. -/
theorem c4_witness :
    ((addElement envNoFactory initState "p" "a").1 = false
     ∧ ((addElement envNoFactory initState "p" "a").2.registry = initState.registry
        ∧ (addElement envNoFactory initState "p" "a").2.elems = initState.elems
        ∧ (addElement envNoFactory initState "p" "a").2.attached = initState.attached
        ∧ (addElement envNoFactory initState "p" "a").2.liveCaps = initState.liveCaps))
    ∧ (envNoFactory.factoryOk "p" "a" = false
       ∧ (addElementCaps envNoFactory initState "p" "a" "caps").2.registry
           = initState.registry) :=
  ⟨⟨by decide, (c4_fail_frame envNoFactory initState "p" "a" "caps").1 (by decide)⟩,
   ⟨by decide, (c4_fail_frame envNoFactory initState "p" "a" "caps").2
      (Or.inl (by decide))⟩⟩

/-! ### C6: lookup after sequences of creates -/

theorem runCreates_append (env : Engine) :
    ∀ (l1 l2 : List (String × String)) (s : PState),
    runCreates env s (l1 ++ l2) = runCreates env (runCreates env s l1) l2
  | [], _, _ => rfl
  | c :: rest, l2, s => by
    simp only [List.cons_append, runCreates]
    exact runCreates_append env rest l2 _

theorem allSucceed_decomp (env : Engine) :
    ∀ (l1 l2 : List (String × String)) (s : PState),
    allSucceed env s (l1 ++ l2) = true →
    allSucceed env (runCreates env s l1) l2 = true
  | [], _, _, h => h
  | c :: rest, l2, s, h => by
    simp only [List.cons_append, allSucceed, Bool.and_eq_true] at h
    simp only [runCreates]
    exact allSucceed_decomp env rest l2 _ h.2

theorem lookup_runCreates_notmem (env : Engine) :
    ∀ (l : List (String × String)) (s : PState) (n : String),
    n ∉ l.map Prod.snd →
    getElementByName (runCreates env s l) n = getElementByName s n
  | [], _, _, _ => rfl
  | c :: rest, s, n, h => by
    simp only [List.map_cons, List.mem_cons] at h
    push_neg at h
    simp only [runCreates]
    rw [lookup_runCreates_notmem env rest _ n h.2]
    exact addElement_other_lookup env s c.1 c.2 h.1

/-- C6: after a sequence of successful creates with pairwise-distinct names,
looking any of those names up returns the handle allocated by the create
issued under that name (the allocation counter of the state just before that
call), and looking up a name never used in a create returns absent. -/
theorem c6_create_then_lookup (env : Engine) (calls : List (String × String))
    (hdist : (calls.map Prod.snd).Nodup)
    (hsucc : allSucceed env initState calls = true) :
    (∀ pre call post, calls = pre ++ call :: post →
       getElementByName (runCreates env initState calls) call.2
         = some (runCreates env initState pre).nextId)
    ∧ (∀ n, n ∉ calls.map Prod.snd →
       getElementByName (runCreates env initState calls) n = none) := by
  constructor
  · intro pre call post hdecomp
    subst hdecomp
    have hsucc2 : allSucceed env (runCreates env initState pre) (call :: post) = true :=
      allSucceed_decomp env pre (call :: post) initState hsucc
    simp only [allSucceed, Bool.and_eq_true] at hsucc2
    have hone : (addElement env (runCreates env initState pre) call.1 call.2).1 = true :=
      hsucc2.1
    have hnod : ((pre ++ call :: post).map Prod.snd).Nodup := hdist
    rw [List.map_append] at hnod
    have hnod2 := hnod.of_append_right
    rw [List.map_cons] at hnod2
    have hnotmem : call.2 ∉ post.map Prod.snd := (List.nodup_cons.mp hnod2).1
    rw [runCreates_append env pre (call :: post) initState]
    simp only [runCreates]
    rw [lookup_runCreates_notmem env post _ call.2 hnotmem]
    exact addElement_success_lookup hone
  · intro n hn
    rw [lookup_runCreates_notmem env calls initState n hn]
    rfl

/-- Witness for C6: one successful create of "a", then lookups of "a" and of
an unused name. -/
theorem c6_witness :
    (([("p", "a")].map Prod.snd).Nodup
     ∧ allSucceed envAll initState [("p", "a")] = true)
    ∧ getElementByName (runCreates envAll initState [("p", "a")]) "a"
        = some (runCreates envAll initState []).nextId
    ∧ getElementByName (runCreates envAll initState [("p", "a")]) "zz" = none :=
  ⟨⟨by decide, by decide⟩,
   (c6_create_then_lookup envAll [("p", "a")] (by decide) (by decide)).1
     [] ("p", "a") [] rfl,
   (c6_create_then_lookup envAll [("p", "a")] (by decide) (by decide)).2
     "zz" (by decide)⟩

/-! ### C8: registry validity invariant -/

theorem regValid_of_eq {s1 s2 : PState} (h : RegValid s2)
    (hg : s1.registry = s2.registry) (he : s1.elems = s2.elems)
    (ha : s1.attached = s2.attached) : RegValid s1 := by
  intro q hq
  rw [he, ha]
  exact h q (hg ▸ hq)

theorem regValid_insert {s1 s2 : PState} (n : String) (id : Nat)
    (cp : Option Nat) (h : RegValid s2)
    (hg : s1.registry = insertReplace s2.registry n (id, cp))
    (he : s1.elems = id :: s2.elems)
    (ha : s1.attached = id :: s2.attached) : RegValid s1 := by
  intro q hq
  rw [hg] at hq
  rw [he, ha]
  simp only [insertReplace] at hq
  rcases List.mem_cons.mp hq with hq | hq
  · subst hq
    exact ⟨List.mem_cons_self _ _, List.mem_cons_self _ _⟩
  · obtain ⟨q1, q2⟩ := h q (eraseKey_mem hq)
    exact ⟨List.mem_cons_of_mem _ q1, List.mem_cons_of_mem _ q2⟩

theorem regValid_addElement (env : Engine) (s : PState) (p n : String)
    (h : RegValid s) : RegValid (addElement env s p n).2 := by
  cases hr : (addElement env s p n).1 with
  | false =>
    obtain ⟨h1, h2, h3, _, _⟩ := addElement_false_fields hr
    exact regValid_of_eq h h1 h2 h3
  | true =>
    obtain ⟨h1, h2, h3, _, _, _⟩ := addElement_true_fields hr
    exact regValid_insert n s.nextId none h h1 h2 h3

theorem regValid_mono {s1 s2 : PState} (h : RegValid s2)
    (hg : s1.registry = s2.registry)
    (he : ∀ x, x ∈ s2.elems → x ∈ s1.elems)
    (ha : ∀ x, x ∈ s2.attached → x ∈ s1.attached) : RegValid s1 := by
  intro q hq
  obtain ⟨q1, q2⟩ := h q (hg ▸ hq)
  exact ⟨he _ q1, ha _ q2⟩

theorem regValid_addElementCaps (env : Engine) (s : PState) (p n cs : String)
    (h : RegValid s) : RegValid (addElementCaps env s p n cs).2 := by
  have hcf := capsFromString_fields env (createElement env s p n).2 cs
  simp only [addElementCaps]
  split
  next hr =>
    obtain ⟨g1, g2, g3, -, -⟩ := createElement_none hr
    exact regValid_of_eq h (by rw [hcf.1, g1]) (by rw [hcf.2.1, g2])
      (by rw [hcf.2.2.1, g3])
  next id hr =>
    obtain ⟨hid, ge, ga, gg, -, -, -⟩ := createElement_some hr
    subst hid
    have hmonoE : ∀ x, x ∈ s.elems →
        x ∈ (capsFromString env (createElement env s p n).2 cs).2.elems := by
      intro x hx
      rw [hcf.2.1, ge]
      exact List.mem_cons_of_mem _ hx
    have hmonoA : ∀ x, x ∈ s.attached →
        x ∈ (capsFromString env (createElement env s p n).2 cs).2.attached := by
      intro x hx
      rw [hcf.2.2.1, ga]
      exact List.mem_cons_of_mem _ hx
    split
    next =>
      split
      next hcp => exact regValid_mono h (hcf.1.trans gg) hmonoE hmonoA
      next cp hcp =>
        split
        next hlv =>
          refine regValid_insert n s.nextId (some cp) h ?_ ?_ ?_
          · simp [hcf.1, gg]
          · simp [hcf.2.1, ge]
          · simp [hcf.2.2.1, ga]
        next hlv => exact regValid_mono h (hcf.1.trans gg) hmonoE hmonoA
    next => exact regValid_mono h (hcf.1.trans gg) hmonoE hmonoA

theorem regValid_step (env : Engine) (s : PState) (op : Op) (h : RegValid s) :
    RegValid (step env s op) := by
  cases op with
  | add p n => exact regValid_addElement env s p n h
  | addCaps p n c => exact regValid_addElementCaps env s p n c h
  | link ns =>
    obtain ⟨h1, h2, h3, _⟩ := linkByName_fields env ns s
    exact regValid_of_eq h h1 h2 h3
  | signal n sg =>
    obtain ⟨h1, h2, h3, _, _⟩ := setElementSignal_fields s n sg
    exact regValid_of_eq h h1 h2 h3
  | prop n k v =>
    obtain ⟨h1, h2, h3, _, _⟩ := setElementProperty_fields s n k v
    exact regValid_of_eq h h1 h2 h3
  | setState n st =>
    obtain ⟨h1, h2, h3, _, _⟩ := setElementState_fields env s n st
    exact regValid_of_eq h h1 h2 h3

theorem regValid_run (env : Engine) :
    ∀ (ops : List Op) (s : PState), RegValid s → RegValid (run env s ops)
  | [], _, h => h
  | op :: rest, s, h => regValid_run env rest _ (regValid_step env s op h)

/-- C8: after any sequence of operations from the freshly constructed
pipeline, every handle a lookup returns refers to an element that is live
and attached to this pipeline's bin — no partially constructed handle is
ever stored in the registry. -/
theorem c8_lookup_fully_valid (env : Engine) (ops : List Op) (n : String)
    (e : Nat) (h : getElementByName (run env initState ops) n = some e) :
    e ∈ (run env initState ops).elems ∧ e ∈ (run env initState ops).attached := by
  have hv : RegValid (run env initState ops) :=
    regValid_run env ops initState (by intro q hq; simp [initState] at hq)
  cases hl : lookupReg (run env initState ops).registry n with
  | none => simp [getElementByName, hl] at h
  | some q =>
    simp only [getElementByName, hl] at h
    injection h with he
    obtain ⟨q1, q2⟩ := hv (n, q) (lookupReg_mem hl)
    exact ⟨he ▸ q1, he ▸ q2⟩

/-- Witness for C8: one create, then the lookup of its name. -/
theorem c8_witness :
    getElementByName (run envAll initState [Op.add "p" "a"]) "a" = some 1
    ∧ (1 ∈ (run envAll initState [Op.add "p" "a"]).elems
       ∧ 1 ∈ (run envAll initState [Op.add "p" "a"]).attached) :=
  ⟨by decide, c8_lookup_fully_valid envAll [Op.add "p" "a"] "a" 1 (by decide)⟩

end GStream
